import Mathlib

/-!
Verification of the airahost worker's pricing core against its
natural-language specification.

The Python source is shallowly embedded in Lean:
* Python floats are modelled as rationals (ℚ).  Every concrete numeric
  fact proved below has been checked to coincide with IEEE-754 double
  evaluation of the source at the same inputs.
* Python's built-in `round` (banker's rounding, ties to even) is
  modelled by `pyRound`; `round(x, k)` by `pyRoundTo`.
* `datetime.date` values are modelled as integers counting days (day 0
  is a Monday, matching `date.weekday()`); `date.isoformat` is an
  injective monotone map, so dictionary keys and lexicographic string
  comparison on ISO dates are modelled by the day numbers themselves,
  and `(a - b).days` by integer subtraction.
* Python dicts holding job inputs are modelled as structures whose
  field defaults mirror the `.get(key, default)` defaults in the code.
-/

/-- Python's built-in `round` on a rational: nearest integer, ties to even. -/
def pyRound (x : ℚ) : ℤ :=
  let n := Int.floor x
  let f := x - n
  if f < 1/2 then n
  else if 1/2 < f then n + 1
  else if n % 2 = 0 then n else n + 1

/-- Python's `round(x, k)`: round to `k` decimal places, ties to even. -/
def pyRoundTo (x : ℚ) (k : ℕ) : ℚ :=
  (pyRound (x * (10 ^ k : ℕ)) : ℚ) / (10 ^ k : ℕ)

/- ── worker/core/discounts.py ─────────────────────────────────── -/

/-- `DiscountPolicy` job input; field defaults mirror the
`policy.get(key, default)` defaults in `apply_discount` and the
`minPriceFloor`/`maxPriceCeiling` fields read in `main.py`. -/
structure DiscountPolicy where
  weeklyDiscountPct : ℚ := 0
  monthlyDiscountPct : ℚ := 0
  refundable : Bool := true
  nonRefundableDiscountPct : ℚ := 0
  stackingMode : String := "compound"
  maxTotalDiscountPct : ℚ := 40
  minPriceFloor : Option ℚ := none
  maxPriceCeiling : Option ℚ := none
deriving DecidableEq

/-- Length-of-stay discount fraction computed at the top of `apply_discount`. -/
def length_discount (policy : DiscountPolicy) (stay_length : ℤ) : ℚ :=
  if 28 ≤ stay_length ∧ 0 < policy.monthlyDiscountPct then
    policy.monthlyDiscountPct / 100
  else if 7 ≤ stay_length ∧ 0 < policy.weeklyDiscountPct then
    policy.weeklyDiscountPct / 100
  else 0

/-- `non_ref_discount = 0.0 if refundable else non_ref_pct / 100`. -/
def non_ref_discount (policy : DiscountPolicy) : ℚ :=
  if policy.refundable then 0 else policy.nonRefundableDiscountPct / 100

/-- Refundable discount fraction of `apply_discount`: the length discount
in every stacking mode, then capped at `max_total / 100`. -/
def refundable_discount (policy : DiscountPolicy) (stay_length : ℤ) : ℚ :=
  min (length_discount policy stay_length) (policy.maxTotalDiscountPct / 100)

/-- Non-refundable discount fraction of `apply_discount`, by stacking mode
(`best_only` / `additive` / anything else is `compound`). -/
def non_refundable_discount (policy : DiscountPolicy) (stay_length : ℤ) : ℚ :=
  let l := length_discount policy stay_length
  let n := non_ref_discount policy
  if policy.stackingMode = "best_only" then max l n
  else if policy.stackingMode = "additive" then
    min (l + n) (policy.maxTotalDiscountPct / 100)
  else
    min (1 - (1 - l) * (1 - n)) (policy.maxTotalDiscountPct / 100)

/-- The two prices of `apply_discount` before the final `round(...)`. -/
def apply_discount_raw (base_price : ℚ) (stay_length : ℤ)
    (policy : DiscountPolicy) : ℚ × ℚ :=
  (base_price * (1 - refundable_discount policy stay_length),
   base_price * (1 - non_refundable_discount policy stay_length))

/-- `apply_discount`: returns `(refundablePrice, nonRefundablePrice)`. -/
def apply_discount (base_price : ℚ) (stay_length : ℤ)
    (policy : DiscountPolicy) : ℤ × ℤ :=
  (pyRound (apply_discount_raw base_price stay_length policy).1,
   pyRound (apply_discount_raw base_price stay_length policy).2)

/- ── worker/core/cache.py ─────────────────────────────────────── -/

/-- The attribute fields read by `compute_cache_key` via
`attributes.get(key, default)`. -/
structure ListingAttributes where
  propertyType : String := ""
  bedrooms : ℚ := 0
  bathrooms : ℚ := 0
  maxGuests : ℚ := 0
deriving DecidableEq

/-- The `payload` dict built inside `compute_cache_key`.  The Python code
serializes this dict with `json.dumps(..., sort_keys=True)` (injective on
such payloads) and hashes with truncated SHA-256, so two inputs produce
the same cache key exactly when they produce the same payload record. -/
structure CacheKeyPayload where
  inputMode : String
  listing_url : String
  address : String
  propertyType : String
  bedrooms : ℚ
  bathrooms : ℚ
  maxGuests : ℚ
  startDate : String
  endDate : String
  weeklyDiscountPct : ℚ
  monthlyDiscountPct : ℚ
  refundable : Bool
  nonRefundableDiscountPct : ℚ
  stackingMode : String
  maxTotalDiscountPct : ℚ
deriving DecidableEq

/-- `compute_cache_key`, modelled up to the injective canonical-JSON
serialization: returns the payload record whose serialization is hashed. -/
def compute_cache_key_payload (address : String) (attributes : ListingAttributes)
    (start_date end_date : String) (discount_policy : DiscountPolicy)
    (listing_url : Option String) (input_mode : String) : CacheKeyPayload :=
  { inputMode := input_mode
    listing_url := listing_url.getD ""
    address := address
    propertyType := attributes.propertyType
    bedrooms := attributes.bedrooms
    bathrooms := attributes.bathrooms
    maxGuests := attributes.maxGuests
    startDate := start_date
    endDate := end_date
    weeklyDiscountPct := discount_policy.weeklyDiscountPct
    monthlyDiscountPct := discount_policy.monthlyDiscountPct
    refundable := discount_policy.refundable
    nonRefundableDiscountPct := discount_policy.nonRefundableDiscountPct
    stackingMode := discount_policy.stackingMode
    maxTotalDiscountPct := discount_policy.maxTotalDiscountPct }

/- ── worker/core/dynamic_pricing.py ───────────────────────────── -/

/-- `_clamp(value, low, high) = max(low, min(high, value))`. -/
def pyClamp (value low high : ℚ) : ℚ :=
  max low (min high value)

/-- `compute_time_multiplier(today, target_date)`; dates are day numbers. -/
def compute_time_multiplier (today target_date : ℤ) : ℚ :=
  let days_away := target_date - today
  if 30 < days_away then 1
  else if 14 < days_away then 0.97
  else if 7 < days_away then 0.92
  else if 3 < days_away then 0.85
  else 0.75

/-- `compute_demand_adjustment(demand_score)`. -/
def compute_demand_adjustment (demand_score : ℚ) : ℚ :=
  pyRoundTo (pyClamp (1 - (0.6 - demand_score) * 0.10) 0.90 1.05) 3

/-- The `final_multiplier` expression of `compute_dynamic_pricing_adjustment`:
`round(_clamp(time_multiplier * demand_adjustment, 0.65, 1.05), 3)`. -/
def compute_final_multiplier (time_multiplier demand_adjustment : ℚ) : ℚ :=
  pyRoundTo (pyClamp (time_multiplier * demand_adjustment) 0.65 1.05) 3

/- ── worker/scraper/day_query.py : sampling ───────────────────── -/

/-- `compute_sample_dates(total_nights, max_queries)`: all indices when the
range is small enough, otherwise the sorted set `{0, total_nights-1}` plus
every multiple of `step = ceil(total_nights / max_queries)` below
`total_nights` (the indices added by the `while i < total_nights` loop). -/
def compute_sample_dates (total_nights max_queries : ℕ) : List ℕ :=
  if total_nights ≤ max_queries then List.range total_nights
  else
    let step := (total_nights + max_queries - 1) / max_queries
    let indices : Finset ℕ :=
      insert 0 (insert (total_nights - 1)
        ((Finset.range total_nights).filter (fun i => i % step = 0)))
    indices.sort (· ≤ ·)

/- ── worker/core/similarity.py ────────────────────────────────── -/

/-- `ListingSpec` (worker/scraper/target_extractor.py).  `property_type`
defaults to the empty string (falsy in Python), numeric attributes to
`None`, amenities to the empty list. -/
structure ListingSpec where
  url : String := ""
  title : String := ""
  location : String := ""
  accommodates : Option ℚ := none
  bedrooms : Option ℚ := none
  beds : Option ℚ := none
  baths : Option ℚ := none
  property_type : String := ""
  nightly_price : Option ℚ := none
  rating : Option ℚ := none
  reviews : Option ℚ := none
  amenities : List String := []

/-- The `add_num` helper of `similarity_score`: neutral prior `0.35 × w`
when either side is unknown, else `max(0, 1 − |t−c|/tol) × w`. -/
def add_num_contrib (t c : Option ℚ) (w tol : ℚ) : ℚ :=
  match c with
  | none => 0.35 * w
  | some cv =>
    match t with
    | none => 0.35 * w
    | some tv => max 0 (1 - |tv - cv| / tol) * w

/-- Property-type contribution of `similarity_score` (Python truthiness of
a string is non-emptiness). -/
def property_type_contrib (target cand : ListingSpec) : ℚ :=
  if target.property_type ≠ "" ∧ cand.property_type ≠ "" then
    (if target.property_type = cand.property_type then 1 else 0.15) * 1.8
  else 0.35 * 1.8

/-- Amenity contribution of `similarity_score`: Jaccard overlap
`len(t∩c) / max(1, len(t∪c))` when both sets are non-empty, else the
neutral prior. -/
def amenity_contrib (target cand : ListingSpec) : ℚ :=
  let t_set := target.amenities.toFinset
  let c_set := cand.amenities.toFinset
  if t_set.Nonempty ∧ c_set.Nonempty then
    (((t_set ∩ c_set).card : ℚ) / ((max 1 (t_set ∪ c_set).card : ℕ) : ℚ)) * 1.2
  else 0.35 * 1.2

/-- Total feature weight `2.2 + 2.6 + 1.4 + 2.0 + 1.8 + 1.2`. -/
def similarity_weight_sum : ℚ := 2.2 + 2.6 + 1.4 + 2.0 + 1.8 + 1.2

/-- `similarity_score(target, cand)`. -/
def similarity_score (target cand : ListingSpec) : ℚ :=
  let score :=
    add_num_contrib target.accommodates cand.accommodates 2.2 3.0
    + add_num_contrib target.bedrooms cand.bedrooms 2.6 2.0
    + add_num_contrib target.beds cand.beds 1.4 3.0
    + add_num_contrib target.baths cand.baths 2.0 1.5
    + property_type_contrib target cand
    + amenity_contrib target cand
  if similarity_weight_sum ≤ 0 then 0 else score / similarity_weight_sum

/- ── worker/core/pricing_engine.py ────────────────────────────── -/

/-- Comparison used by `sorted(zip(values, weights), key=lambda x: x[0])`. -/
def le_fst_q (a b : ℚ × ℚ) : Prop := a.1 ≤ b.1

instance : DecidableRel le_fst_q :=
  fun a b => inferInstanceAs (Decidable (a.1 ≤ b.1))

instance : IsTotal (ℚ × ℚ) le_fst_q := ⟨fun a b => le_total a.1 b.1⟩

instance : IsTrans (ℚ × ℚ) le_fst_q := ⟨fun _ _ _ h1 h2 => le_trans h1 h2⟩

/-- The accumulation loop of `_weighted_median`: walk the sorted pairs,
returning the first value whose cumulative weight reaches `half`. -/
def weighted_median_scan (pairs : List (ℚ × ℚ)) (cum half : ℚ) : Option ℚ :=
  match pairs with
  | [] => none
  | (v, w) :: rest =>
    if half ≤ cum + w then some v else weighted_median_scan rest (cum + w) half

/-- `_weighted_median(values, weights)`. -/
def weighted_median (values weights : List ℚ) : Option ℚ :=
  if values = [] ∨ weights = [] ∨ values.length ≠ weights.length then none
  else
    let pairs := List.insertionSort le_fst_q (values.zip weights)
    let total := (pairs.map Prod.snd).sum
    if total ≤ 0 then none
    else
      match weighted_median_scan pairs 0 (total / 2) with
      | some v => some v
      | none => (pairs.getLast?).map Prod.fst

/-- `statistics.median(values)`: sort ascending; the middle element for odd
length, the mean of the two middle elements for even length, undefined on
the empty list. -/
def statistics_median (values : List ℚ) : Option ℚ :=
  let s := List.insertionSort (· ≤ ·) values
  let n := s.length
  if n = 0 then none
  else if n % 2 = 1 then some (s.getD (n / 2) 0)
  else some ((s.getD (n / 2 - 1) 0 + s.getD (n / 2) 0) / 2)

/- ── worker/scraper/day_query.py : interpolation ──────────────── -/

/-- `DayResult` (fields used by the interpolation pipeline; the
`price_distribution` and `top_comps` payloads are irrelevant to the
claims and omitted).  Dates are day numbers (see the header note). -/
structure DayResult where
  date : ℤ
  median_price : Option ℚ := none
  comps_collected : ℕ := 0
  comps_used : ℕ := 0
  filter_stage : String := ""
  flags : List String := []
  is_sampled : Bool := true
  is_weekend : Bool := false
  error : Option String := none
deriving DecidableEq

/-- `daterange_nights(start_date, end_date)`: each night in the half-open
interval `[start_date, end_date)`, ascending. -/
def daterange_nights (start_date end_date : ℤ) : List ℤ :=
  (List.range (end_date - start_date).toNat).map
    (fun i : ℕ => start_date + (i : ℤ))

/-- The `before` anchor of `_interpolate`: the last anchor whose date is
`≤ target_ds` (the loop keeps overwriting `before`). -/
def interp_before (target_ds : ℤ) (anchors : List (ℤ × ℚ)) : Option (ℤ × ℚ) :=
  anchors.foldl (fun acc p => if p.1 ≤ target_ds then some p else acc) none

/-- The `after` anchor of `_interpolate`: the first anchor whose date is
`≥ target_ds` (the loop only sets `after` while it is still `None`). -/
def interp_after (target_ds : ℤ) (anchors : List (ℤ × ℚ)) : Option (ℤ × ℚ) :=
  anchors.foldl
    (fun acc p => if target_ds ≤ p.1 ∧ acc = none then some p else acc) none

/-- `_interpolate(target_ds, anchors)`: linear interpolation between the
nearest anchors, clamping to the first/last anchor outside their span. -/
def interpolate (target_ds : ℤ) (anchors : List (ℤ × ℚ)) : Option ℚ :=
  match anchors with
  | [] => none
  | [a] => some a.2
  | _ =>
    match interp_before target_ds anchors, interp_after target_ds anchors with
    | none, some a => some a.2
    | some b, none => some b.2
    | none, none => none
    | some b, some a =>
      if b.1 = a.1 then some b.2
      else
        some (b.2 + ((target_ds - b.1 : ℤ) : ℚ) / ((a.1 - b.1 : ℤ) : ℚ) * (a.2 - b.2))

/-- Comparison used by `sorted(..., key=lambda x: x[0])` on anchors. -/
def le_fst_z (a b : ℤ × ℚ) : Prop := a.1 ≤ b.1

instance : DecidableRel le_fst_z :=
  fun a b => inferInstanceAs (Decidable (a.1 ≤ b.1))

/-- Loop body of `interpolate_missing_days`: resolve one night, either to
its sampled result (Case 1) or to an interpolated / no-data placeholder
(Case 2). -/
def fill_night (lookup_valid : ℤ → Option DayResult)
    (sampled_dates : List ℤ) (anchors : List (ℤ × ℚ))
    (night : ℤ) : DayResult :=
  match lookup_valid night with
  | some r => r
  | none =>
    let flags :=
      if night ∈ sampled_dates then ["interpolated", "missing_data"]
      else ["interpolated"]
    match interpolate night anchors with
    | some p =>
      { date := night
        median_price := some (pyRoundTo p 2)
        filter_stage := "interpolated"
        flags := flags
        is_sampled := false
        is_weekend := decide (4 ≤ night % 7) }
    | none =>
      { date := night
        filter_stage := "no_data"
        flags := ["missing_data"]
        is_sampled := false
        is_weekend := decide (4 ≤ night % 7)
        error := some "No valid anchors for interpolation" }

/-- `interpolate_missing_days(sampled_results, all_nights)`.  The Python
`valid_map` dict is modelled by searching the valid results from the
right (later list entries overwrite earlier ones on a duplicate date);
the `valid_map.items()` anchor list is one `(date, price)` pair per
distinct valid date, sorted by date. -/
def interpolate_missing_days (sampled_results : List DayResult)
    (all_nights : List ℤ) : List DayResult :=
  let valid := sampled_results.filter (fun r => r.median_price.isSome)
  let lookup_valid : ℤ → Option DayResult :=
    fun ds => valid.reverse.find? (fun r => r.date = ds)
  let sampled_dates := sampled_results.map (fun r => r.date)
  let anchors : List (ℤ × ℚ) :=
    List.insertionSort le_fst_z
      (((valid.map (fun r => r.date)).dedup).filterMap
        (fun d => (lookup_valid d).bind
          (fun r => r.median_price.map (fun p => (d, p)))))
  all_nights.map (fill_night lookup_valid sampled_dates anchors)

/- ── Claim theorems ───────────────────────────────────────────── -/

/-- C1 (amended): for every positive base price, every stay length and
every policy, the refundable discount fraction embodied in the
pre-rounding price is at most `maxTotalDiscountPct/100`, and so is the
non-refundable fraction in every stacking mode other than `best_only`
(in `best_only` the non-refundable discount is not capped). -/
theorem apply_discount_fraction_cap (b : ℚ) (s : ℤ) (p : DiscountPolicy)
    (hb : 0 < b) :
    1 - (apply_discount_raw b s p).1 / b ≤ p.maxTotalDiscountPct / 100 ∧
    (p.stackingMode ≠ "best_only" →
      1 - (apply_discount_raw b s p).2 / b ≤ p.maxTotalDiscountPct / 100) := by
  have hb' : b ≠ 0 := ne_of_gt hb
  have h1 : ∀ d : ℚ, 1 - b * (1 - d) / b = d := by
    intro d
    field_simp
  constructor
  · rw [apply_discount_raw]
    simp only [h1]
    exact min_le_right _ _
  · intro hmode
    rw [apply_discount_raw]
    simp only [h1]
    rw [non_refundable_discount]
    rw [if_neg hmode]
    by_cases hadd : p.stackingMode = "additive"
    · rw [if_pos hadd]; exact min_le_right _ _
    · rw [if_neg hadd]; exact min_le_right _ _

/-- C1 witness: the cap holds at base 100, stay 7, a 10% weekly policy. -/
theorem apply_discount_fraction_cap_witness :
    1 - (apply_discount_raw 100 7 { weeklyDiscountPct := 10 }).1 / 100 ≤
      ({ weeklyDiscountPct := 10 } : DiscountPolicy).maxTotalDiscountPct / 100 :=
  (apply_discount_fraction_cap 100 7 { weeklyDiscountPct := 10 } (by norm_num)).1

/-- C1 counterexample: with a 50% monthly discount, `best_only` stacking
and the default 40% cap, a 28-night stay's non-refundable pre-rounding
price embodies a 50% discount, exceeding `maxTotalDiscountPct/100`. -/
theorem apply_discount_fraction_cap_counterexample :
    ({ monthlyDiscountPct := 50, stackingMode := "best_only" }
        : DiscountPolicy).maxTotalDiscountPct = 40 ∧
    ¬ (1 - (apply_discount_raw 100 28
          { monthlyDiscountPct := 50, stackingMode := "best_only" }).2 / 100
        ≤ 40 / 100) := by
  constructor
  · rfl
  · norm_num [apply_discount_raw, non_refundable_discount, length_discount,
      non_ref_discount]

/-- C2: the cache-key payload omits `minPriceFloor` (and
`maxPriceCeiling`), so two inputs that differ only in the price floor
serialize to the same canonical payload and hash to the same cache key,
even though the floor changes the calendar prices built in `main.py`. -/
theorem compute_cache_key_ignores_price_floor :
    compute_cache_key_payload "123 Main St" {} "2026-01-01" "2026-01-31"
        { minPriceFloor := some 100 } none "criteria"
      = compute_cache_key_payload "123 Main St" {} "2026-01-01" "2026-01-31"
        { minPriceFloor := none } none "criteria" ∧
    ({ minPriceFloor := some 100 } : DiscountPolicy).minPriceFloor ≠
      ({ minPriceFloor := none } : DiscountPolicy).minPriceFloor := by
  exact ⟨rfl, by decide⟩

/-- C3: one day away gives `timeMultiplier = 0.75`; demand score `0.9`
gives `demandAdjustment = 1.03`; the final multiplier
`round(clamp(0.75 × 1.03, 0.65, 1.05), 3)` is exactly `0.772`. -/
theorem dynamic_adjustment_one_day_example :
    (∀ today : ℤ, compute_time_multiplier today (today + 1) = 0.75) ∧
    compute_demand_adjustment 0.9 = 1.03 ∧
    compute_final_multiplier (compute_time_multiplier 0 1)
      (compute_demand_adjustment 0.9) = 0.772 := by
  refine ⟨fun today => ?_, ?_, ?_⟩
  · rw [compute_time_multiplier]
    have h : today + 1 - today = (1 : ℤ) := by ring
    rw [h]
    norm_num
  · norm_num [compute_demand_adjustment, pyClamp, pyRoundTo, pyRound]
  · norm_num [compute_final_multiplier, compute_time_multiplier,
      compute_demand_adjustment, pyClamp, pyRoundTo, pyRound]

/-- C6: `apply_discount` computes the non-refundable discount per
stacking mode exactly as specified, and at base 200, stay 30, weekly 8%,
monthly 18%, non-refundable 10%, compound stacking and a 40% cap it
returns `(refundablePrice, nonRefundablePrice) = (164, 148)`. -/
theorem apply_discount_stacking_modes_and_example :
    (∀ (s : ℤ) (p : DiscountPolicy), p.stackingMode = "best_only" →
      non_refundable_discount p s
        = max (length_discount p s) (non_ref_discount p)) ∧
    (∀ (s : ℤ) (p : DiscountPolicy), p.stackingMode = "additive" →
      non_refundable_discount p s
        = min (length_discount p s + non_ref_discount p)
            (p.maxTotalDiscountPct / 100)) ∧
    (∀ (s : ℤ) (p : DiscountPolicy), p.stackingMode = "compound" →
      non_refundable_discount p s
        = min (1 - (1 - length_discount p s) * (1 - non_ref_discount p))
            (p.maxTotalDiscountPct / 100)) ∧
    apply_discount 200 30
      { weeklyDiscountPct := 8, monthlyDiscountPct := 18, refundable := false,
        nonRefundableDiscountPct := 10, stackingMode := "compound",
        maxTotalDiscountPct := 40 } = (164, 148) := by
  refine ⟨?_, ?_, ?_, ?_⟩
  · intro s p h
    rw [non_refundable_discount, if_pos h]
  · intro s p h
    rw [non_refundable_discount, if_neg (by rw [h]; decide), if_pos h]
  · intro s p h
    rw [non_refundable_discount, if_neg (by rw [h]; decide),
      if_neg (by rw [h]; decide)]
  · have h1 : ¬ ("compound" = "best_only") := by decide
    have h2 : ¬ ("compound" = "additive") := by decide
    norm_num [apply_discount, apply_discount_raw, refundable_discount,
      non_refundable_discount, length_discount, non_ref_discount, pyRound,
      Prod.ext_iff, h1, h2]

/-- C6 witness: the `compound` equation instantiated at the example
policy and stay length. -/
theorem apply_discount_stacking_modes_witness :
    non_refundable_discount
        { weeklyDiscountPct := 8, monthlyDiscountPct := 18, refundable := false,
          nonRefundableDiscountPct := 10, stackingMode := "compound",
          maxTotalDiscountPct := 40 } 30
      = min (1 - (1 - length_discount
            { weeklyDiscountPct := 8, monthlyDiscountPct := 18,
              refundable := false, nonRefundableDiscountPct := 10,
              stackingMode := "compound", maxTotalDiscountPct := 40 } 30)
          * (1 - non_ref_discount
            { weeklyDiscountPct := 8, monthlyDiscountPct := 18,
              refundable := false, nonRefundableDiscountPct := 10,
              stackingMode := "compound", maxTotalDiscountPct := 40 }))
        (({ weeklyDiscountPct := 8, monthlyDiscountPct := 18,
            refundable := false, nonRefundableDiscountPct := 10,
            stackingMode := "compound",
            maxTotalDiscountPct := 40 } : DiscountPolicy).maxTotalDiscountPct
          / 100) :=
  apply_discount_stacking_modes_and_example.2.2.1 30 _ rfl

/-- C10: with a refundable policy and `additive` or `compound` stacking,
the two prices returned by `apply_discount` coincide. -/
theorem apply_discount_refundable_prices_equal (b : ℚ) (s : ℤ)
    (p : DiscountPolicy) (href : p.refundable = true)
    (hmode : p.stackingMode = "additive" ∨ p.stackingMode = "compound") :
    (apply_discount b s p).1 = (apply_discount b s p).2 := by
  have hnr : non_ref_discount p = 0 := by
    rw [non_ref_discount, if_pos href]
  have key : refundable_discount p s = non_refundable_discount p s := by
    rcases hmode with h | h
    · rw [refundable_discount, non_refundable_discount,
        if_neg (by rw [h]; decide), if_pos h, hnr, add_zero]
    · rw [refundable_discount, non_refundable_discount,
        if_neg (by rw [h]; decide), if_neg (by rw [h]; decide), hnr]
      ring_nf
  rw [apply_discount, apply_discount_raw]
  simp only [key]

/-- C10 witness: equal prices at base 100, stay 7, a refundable additive
policy with a 10% weekly discount. -/
theorem apply_discount_refundable_prices_equal_witness :
    (apply_discount 100 7
        { weeklyDiscountPct := 10, stackingMode := "additive" }).1
      = (apply_discount 100 7
        { weeklyDiscountPct := 10, stackingMode := "additive" }).2 :=
  apply_discount_refundable_prices_equal 100 7
    { weeklyDiscountPct := 10, stackingMode := "additive" } rfl (Or.inl rfl)

/-- Bounds for the numeric-feature contribution of `similarity_score`. -/
lemma add_num_contrib_bounds (t c : Option ℚ) (w tol : ℚ)
    (hw : 0 ≤ w) (htol : 0 < tol) :
    0 ≤ add_num_contrib t c w tol ∧ add_num_contrib t c w tol ≤ w := by
  rcases c with _ | cv
  · rw [add_num_contrib]
    constructor <;> linarith
  · rcases t with _ | tv
    · rw [add_num_contrib]
      constructor <;> linarith
    · rw [add_num_contrib]
      have h0 : 0 ≤ |tv - cv| / tol := div_nonneg (abs_nonneg _) htol.le
      have hge : 0 ≤ max 0 (1 - |tv - cv| / tol) := le_max_left _ _
      have hle : max 0 (1 - |tv - cv| / tol) ≤ 1 :=
        max_le (by norm_num) (by linarith)
      exact ⟨mul_nonneg hge hw, by nlinarith⟩

/-- Bounds for the property-type contribution of `similarity_score`. -/
lemma property_type_contrib_bounds (t c : ListingSpec) :
    0 ≤ property_type_contrib t c ∧ property_type_contrib t c ≤ 1.8 := by
  rw [property_type_contrib]
  split_ifs <;> norm_num

/-- Bounds for the amenity (Jaccard) contribution of `similarity_score`. -/
lemma amenity_contrib_bounds (t c : ListingSpec) :
    0 ≤ amenity_contrib t c ∧ amenity_contrib t c ≤ 1.2 := by
  rw [amenity_contrib]
  split_ifs with h
  · have hsub : (t.amenities.toFinset ∩ c.amenities.toFinset).card
        ≤ (t.amenities.toFinset ∪ c.amenities.toFinset).card :=
      Finset.card_le_card (Finset.inter_subset_union)
    have hden : (1 : ℚ)
        ≤ ((max 1 (t.amenities.toFinset ∪ c.amenities.toFinset).card : ℕ) : ℚ) := by
      exact_mod_cast Nat.le_max_left 1 _
    have hnum : (((t.amenities.toFinset ∩ c.amenities.toFinset).card : ℕ) : ℚ)
        ≤ ((max 1 (t.amenities.toFinset ∪ c.amenities.toFinset).card : ℕ) : ℚ) := by
      exact_mod_cast le_trans hsub (Nat.le_max_right 1 _)
    have hratio0 : (0 : ℚ)
        ≤ (((t.amenities.toFinset ∩ c.amenities.toFinset).card : ℕ) : ℚ)
          / ((max 1 (t.amenities.toFinset ∪ c.amenities.toFinset).card : ℕ) : ℚ) :=
      div_nonneg (by positivity) (by linarith)
    have hratio1 : (((t.amenities.toFinset ∩ c.amenities.toFinset).card : ℕ) : ℚ)
          / ((max 1 (t.amenities.toFinset ∪ c.amenities.toFinset).card : ℕ) : ℚ)
        ≤ 1 := by
      rw [div_le_one (by linarith)]
      exact hnum
    constructor
    · exact mul_nonneg hratio0 (by norm_num)
    · nlinarith
  · norm_num

/-- C7: `similarity_score` always lands in `[0, 1]`, and an
all-defaults candidate (all numeric attributes unknown, empty property
type, no amenities) scores exactly the all-neutral prior `0.35`. -/
theorem similarity_score_bounds_and_neutral :
    (∀ target cand : ListingSpec,
      0 ≤ similarity_score target cand ∧ similarity_score target cand ≤ 1) ∧
    (∀ target : ListingSpec, similarity_score target {} = 0.35) := by
  constructor
  · intro target cand
    obtain ⟨a0, a1⟩ := add_num_contrib_bounds target.accommodates
      cand.accommodates 2.2 3.0 (by norm_num) (by norm_num)
    obtain ⟨b0, b1⟩ := add_num_contrib_bounds target.bedrooms
      cand.bedrooms 2.6 2.0 (by norm_num) (by norm_num)
    obtain ⟨c0, c1⟩ := add_num_contrib_bounds target.beds
      cand.beds 1.4 3.0 (by norm_num) (by norm_num)
    obtain ⟨d0, d1⟩ := add_num_contrib_bounds target.baths
      cand.baths 2.0 1.5 (by norm_num) (by norm_num)
    obtain ⟨e0, e1⟩ := property_type_contrib_bounds target cand
    obtain ⟨f0, f1⟩ := amenity_contrib_bounds target cand
    simp only [similarity_score]
    rw [if_neg (by norm_num [similarity_weight_sum])]
    constructor
    · exact div_nonneg (by linarith) (by norm_num [similarity_weight_sum])
    · rw [div_le_one (by norm_num [similarity_weight_sum] :
        (0 : ℚ) < similarity_weight_sum)]
      rw [similarity_weight_sum]
      linarith
  · intro target
    simp [similarity_score, add_num_contrib, property_type_contrib,
      amenity_contrib, similarity_weight_sum, Finset.not_nonempty_empty]
    norm_num

/-- The sampling loop adds exactly the multiples of `step` below `n`;
there are `(n - 1) / step + 1` of them. -/
lemma card_range_filter_mod (s n : ℕ) (_hs : 0 < s) (hn : 1 ≤ n) :
    ((Finset.range n).filter (fun i => i % s = 0)).card = (n - 1) / s + 1 := by
  induction n with
  | zero => omega
  | succ m ih =>
    rcases Nat.eq_zero_or_pos m with hm | hm
    · subst hm
      rw [Finset.range_one, Finset.filter_singleton, if_pos (Nat.zero_mod s)]
      simp
    · have ihm := ih hm
      rw [Finset.range_succ, Finset.filter_insert]
      have hsd : m / s = (m - 1) / s + if s ∣ m then 1 else 0 := by
        obtain ⟨k, rfl⟩ : ∃ k, m = k + 1 := ⟨m - 1, by omega⟩
        simp only [Nat.add_sub_cancel]
        exact Nat.succ_div k s
      by_cases hdvd : m % s = 0
      · rw [if_pos hdvd, Finset.card_insert_of_not_mem (by simp), ihm]
        rw [if_pos (Nat.dvd_of_mod_eq_zero hdvd)] at hsd
        simp only [Nat.add_sub_cancel]
        omega
      · rw [if_neg hdvd, ihm]
        rw [if_neg (fun hd => hdvd (Nat.mod_eq_zero_of_dvd hd))] at hsd
        simp only [Nat.add_sub_cancel]
        omega

/-- C4 (amended): `compute_sample_dates(N, maxQueries)` returns all of
`0..N-1` when `N ≤ maxQueries`; when `maxQueries ≥ 1 < N` it returns a
sorted duplicate-free list of at most `maxQueries + 1` indices that
contains `0` and `N-1` and consists exactly of `{0, N-1}` plus the
multiples of `ceil(N/maxQueries)` below `N`. -/
theorem compute_sample_dates_spec (N m : ℕ) (hm : 1 ≤ m) :
    (N ≤ m → compute_sample_dates N m = List.range N) ∧
    (m < N →
      List.Sorted (· ≤ ·) (compute_sample_dates N m) ∧
      (compute_sample_dates N m).Nodup ∧
      0 ∈ compute_sample_dates N m ∧
      N - 1 ∈ compute_sample_dates N m ∧
      (compute_sample_dates N m).length ≤ m + 1 ∧
      (∀ i, i ∈ compute_sample_dates N m ↔
        i = 0 ∨ i = N - 1 ∨ (i < N ∧ i % ((N + m - 1) / m) = 0))) := by
  constructor
  · intro h
    rw [compute_sample_dates, if_pos h]
  · intro h
    have hNm : ¬ N ≤ m := not_le.mpr h
    have hunfold : compute_sample_dates N m
        = (insert 0 (insert (N - 1) ((Finset.range N).filter
            (fun i => i % ((N + m - 1) / m) = 0)))).sort (· ≤ ·) := by
      rw [compute_sample_dates, if_neg hNm]
    have hs : 0 < (N + m - 1) / m := Nat.div_pos (by omega) (by omega)
    have hzero_mem : (0 : ℕ) ∈
        insert (N - 1) ((Finset.range N).filter
          (fun i => i % ((N + m - 1) / m) = 0)) := by
      refine Finset.mem_insert_of_mem ?_
      simp only [Finset.mem_filter, Finset.mem_range]
      exact ⟨by omega, Nat.zero_mod _⟩
    have hcard : (insert 0 (insert (N - 1) ((Finset.range N).filter
        (fun i => i % ((N + m - 1) / m) = 0)))).card ≤ m + 1 := by
      rw [Finset.insert_eq_self.mpr hzero_mem]
      have hF := card_range_filter_mod ((N + m - 1) / m) N hs (by omega)
      have hle : N ≤ m * ((N + m - 1) / m) := by
        have h1 := Nat.div_add_mod (N + m - 1) m
        have h2 : (N + m - 1) % m < m := Nat.mod_lt _ (by omega)
        omega
      have hdiv : (N - 1) / ((N + m - 1) / m) < m :=
        (Nat.div_lt_iff_lt_mul hs).mpr (by omega)
      calc (insert (N - 1) ((Finset.range N).filter
            (fun i => i % ((N + m - 1) / m) = 0))).card
          ≤ ((Finset.range N).filter
            (fun i => i % ((N + m - 1) / m) = 0)).card + 1 :=
            Finset.card_insert_le _ _
        _ ≤ m + 1 := by omega
    rw [hunfold]
    refine ⟨Finset.sort_sorted _ _, Finset.sort_nodup _ _, ?_, ?_, ?_, ?_⟩
    · rw [Finset.mem_sort]
      exact Finset.mem_insert_self _ _
    · rw [Finset.mem_sort]
      exact Finset.mem_insert_of_mem (Finset.mem_insert_self _ _)
    · rw [Finset.length_sort]
      exact hcard
    · intro i
      rw [Finset.mem_sort]
      simp [Finset.mem_insert, Finset.mem_filter, Finset.mem_range]

/-- C4 witness: at `N = 40`, `maxQueries = 20` the sampled index list
contains `0` and `39` and has at most 21 entries. -/
theorem compute_sample_dates_spec_witness :
    0 ∈ compute_sample_dates 40 20 ∧ 39 ∈ compute_sample_dates 40 20 ∧
    (compute_sample_dates 40 20).length ≤ 21 := by
  have h := (compute_sample_dates_spec 40 20 (by norm_num)).2 (by norm_num)
  exact ⟨h.2.2.1, h.2.2.2.1, h.2.2.2.2.1⟩

/-- C4 counterexample: at `N = 40`, `maxQueries = 20` the step is 2, so
the loop contributes the 20 even indices and `N−1 = 39` is added on top:
41 − 20 = 21 indices, exceeding the claimed bound `maxQueries = 20`. -/
theorem compute_sample_dates_counterexample :
    (compute_sample_dates 40 20).length = 21 ∧
    ¬ ((compute_sample_dates 40 20).length ≤ 20) := by
  have h : (compute_sample_dates 40 20).length = 21 := by
    rw [compute_sample_dates, if_neg (by norm_num)]
    rw [Finset.length_sort]
    decide
  exact ⟨h, by omega⟩

/-- On a pair list whose weights are all `w > 0`, the accumulation loop
of `_weighted_median` returns the price at the first index whose
cumulative weight reaches `half`. -/
lemma weighted_median_scan_eq (w : ℚ) (hw : 0 < w) :
    ∀ (l : List (ℚ × ℚ)), (∀ p ∈ l, p.2 = w) → ∀ (cum half : ℚ) (t : ℕ),
      t < l.length → cum + (t : ℚ) * w < half →
      half ≤ cum + ((t : ℚ) + 1) * w →
      weighted_median_scan l cum half = some ((l.map Prod.fst).getD t 0) := by
  intro l
  induction l with
  | nil =>
    intro _ _ _ t ht _ _
    simp at ht
  | cons p rest ih =>
    intro hall cum half t ht hlow hhigh
    obtain ⟨v, vw⟩ := p
    have hp2 : vw = w := hall (v, vw) (List.mem_cons_self _ _)
    cases t with
    | zero =>
      rw [weighted_median_scan, hp2, if_pos (by push_cast at hhigh; linarith)]
      simp
    | succ t' =>
      have htc : (0 : ℚ) ≤ (t' : ℚ) := Nat.cast_nonneg t'
      have hlow' : cum + ((t' : ℚ) + 1) * w < half := by
        push_cast at hlow
        linarith
      have hnn : 0 ≤ (t' : ℚ) * w := mul_nonneg htc hw.le
      have hneg : ¬ half ≤ cum + w := by
        push_neg
        nlinarith
      rw [weighted_median_scan, hp2, if_neg hneg]
      have hres := ih (fun q hq => hall q (List.mem_cons_of_mem _ hq))
        (cum + w) half t' (by simpa using Nat.lt_of_succ_lt_succ ht)
        (by nlinarith)
        (by push_cast at hhigh ⊢; nlinarith)
      rw [hres]
      simp

/-- A list whose entries all equal `w` sums to `length × w`. -/
lemma list_sum_const (w : ℚ) :
    ∀ l : List ℚ, (∀ x ∈ l, x = w) → l.sum = l.length * w := by
  intro l
  induction l with
  | nil => simp
  | cons a rest ih =>
    intro h
    have ha : a = w := h a (List.mem_cons_self _ _)
    have hr := ih (fun x hx => h x (List.mem_cons_of_mem _ hx))
    rw [List.sum_cons, hr, ha, List.length_cons]
    push_cast
    ring

/-- C5 (amended): on a non-empty odd-length price list with all weights
equal and positive, `_weighted_median` agrees with `statistics.median`
(for even lengths the loop returns the lower middle element while the
standard median averages the two middle elements). -/
theorem weighted_median_equal_weights (values : List ℚ) (w : ℚ)
    (hne : values ≠ []) (hodd : values.length % 2 = 1) (hw : 0 < w) :
    weighted_median values (List.replicate values.length w)
      = statistics_median values := by
  have hn1 : 0 < values.length := List.length_pos.mpr hne
  obtain ⟨k, hk⟩ : ∃ k, values.length = 2 * k + 1 :=
    ⟨values.length / 2, by omega⟩
  have hcond : ¬ (values = [] ∨ List.replicate values.length w = [] ∨
      values.length ≠ (List.replicate values.length w).length) := by
    push_neg
    exact ⟨hne, List.length_pos.mp (by simp; omega), by simp⟩
  set pairs := List.insertionSort le_fst_q
    (values.zip (List.replicate values.length w)) with hpairs
  have hperm : List.Perm pairs (values.zip (List.replicate values.length w)) :=
    List.perm_insertionSort _ _
  have hlen_pairs : pairs.length = values.length := by
    rw [hperm.length_eq]
    simp
  have hmem_snd : ∀ p ∈ pairs, p.2 = w := by
    intro p hp
    exact List.eq_of_mem_replicate (List.of_mem_zip (hperm.subset hp)).2
  have hsum : (pairs.map Prod.snd).sum = (values.length : ℚ) * w := by
    rw [list_sum_const w _ (by
      intro x hx
      obtain ⟨p, hp, rfl⟩ := List.mem_map.mp hx
      exact hmem_snd p hp)]
    rw [List.length_map, hlen_pairs]
  have hpos : (0 : ℚ) < (values.length : ℚ) * w := by
    have hc : (0 : ℚ) < (values.length : ℚ) := by exact_mod_cast hn1
    exact mul_pos hc hw
  have hfst : pairs.map Prod.fst = List.insertionSort (· ≤ ·) values := by
    refine List.eq_of_perm_of_sorted ?_ ?_ (List.sorted_insertionSort _ _)
    · have hp1 : List.Perm (pairs.map Prod.fst)
          ((values.zip (List.replicate values.length w)).map Prod.fst) :=
        hperm.map _
      have hp2 : (values.zip (List.replicate values.length w)).map Prod.fst
          = values := List.map_fst_zip _ _ (by simp)
      rw [hp2] at hp1
      exact hp1.trans (List.perm_insertionSort _ _).symm
    · exact (List.pairwise_map).mpr (List.sorted_insertionSort le_fst_q _)
  have htk : k < pairs.length := by omega
  have hscan := weighted_median_scan_eq w hw pairs hmem_snd 0
    (((values.length : ℚ) * w) / 2) k htk
    (by rw [hk]; push_cast; nlinarith)
    (by rw [hk]; push_cast; nlinarith)
  have hslen : (List.insertionSort (· ≤ ·) values).length = values.length :=
    (List.perm_insertionSort _ _).length_eq
  simp only [weighted_median]
  rw [if_neg hcond, ← hpairs, hsum, if_neg (not_le.mpr hpos), hscan]
  show some ((pairs.map Prod.fst).getD k 0) = statistics_median values
  rw [hfst]
  simp only [statistics_median]
  rw [if_neg (by rw [hslen]; omega), if_pos (by rw [hslen]; omega)]
  have hidx : (List.insertionSort (· ≤ ·) values).length / 2 = k := by
    rw [hslen, hk]
    omega
  rw [hidx]

/-- C5 witness: three equally-weighted prices give the standard median. -/
theorem weighted_median_equal_weights_witness :
    weighted_median [300, 100, 200] (List.replicate 3 1)
      = statistics_median [300, 100, 200] := by
  have h := weighted_median_equal_weights [300, 100, 200] 1
    (by simp) (by simp) (by norm_num)
  simpa using h

/-- C5 counterexample: with two equally-weighted prices the loop stops at
the lower middle element (100), while `statistics.median` averages the
two middle elements to 150. -/
theorem weighted_median_equal_weights_counterexample :
    weighted_median [100, 200] [1, 1] = some 100 ∧
    statistics_median [100, 200] = some 150 ∧
    weighted_median [100, 200] [1, 1] ≠ statistics_median [100, 200] := by
  have h1 : weighted_median [100, 200] [1, 1] = some 100 := by
    rw [weighted_median, if_neg (by simp)]
    norm_num [weighted_median_scan, le_fst_q, List.insertionSort,
      List.orderedInsert, List.zip_cons_cons]
  have h2 : statistics_median [100, 200] = some 150 := by
    norm_num [statistics_median, List.insertionSort, List.orderedInsert]
  refine ⟨h1, h2, ?_⟩
  rw [h1, h2]
  simp

/-- Every branch of the per-night loop body produces a `DayResult` dated
at the night it resolves (given that the sampled lookup is date-keyed). -/
lemma fill_night_date (lv : ℤ → Option DayResult) (sd : List ℤ)
    (an : List (ℤ × ℚ)) (night : ℤ)
    (h : ∀ r, lv night = some r → r.date = night) :
    (fill_night lv sd an night).date = night := by
  rw [fill_night]
  cases hv : lv night with
  | some r => exact h r hv
  | none => cases interpolate night an <;> rfl

/-- Mapping the loop body over the nights and projecting dates gives the
nights back. -/
lemma map_date_fill_night (lv : ℤ → Option DayResult) (sd : List ℤ)
    (an : List (ℤ × ℚ)) (hlv : ∀ n r, lv n = some r → r.date = n) :
    ∀ nights : List ℤ,
      ((nights.map (fill_night lv sd an)).map (fun r => r.date)) = nights := by
  intro nights
  induction nights with
  | nil => rfl
  | cons n rest ih =>
    simp only [List.map_cons, List.cons.injEq]
    exact ⟨fill_night_date lv sd an n (hlv n), ih⟩

/-- C9: for `checkin < checkout`, `interpolate_missing_days` over the
nights of `[checkin, checkout)` yields exactly one `DayResult` per night
of the half-open interval, in ascending order, with no gaps and no
duplicates. -/
theorem interpolate_missing_days_interval (checkin checkout : ℤ)
    (h : checkin < checkout) (sampled : List DayResult) :
    ((interpolate_missing_days sampled
        (daterange_nights checkin checkout)).map (fun r => r.date)
      = daterange_nights checkin checkout) ∧
    List.Sorted (· < ·) (daterange_nights checkin checkout) ∧
    (∀ d : ℤ, d ∈ daterange_nights checkin checkout ↔
      checkin ≤ d ∧ d < checkout) := by
  refine ⟨?_, ?_, ?_⟩
  · simp only [interpolate_missing_days]
    refine map_date_fill_night _ _ _ (fun n r hr => ?_) _
    have h1 := List.find?_some hr
    simpa using h1
  · rw [daterange_nights]
    refine (List.pairwise_map).mpr
      (List.Pairwise.imp ?_ (List.pairwise_lt_range _))
    intro a b hab
    dsimp only
    omega
  · intro d
    rw [daterange_nights]
    simp only [List.mem_map, List.mem_range]
    constructor
    · rintro ⟨i, hi, rfl⟩
      omega
    · rintro ⟨h1, h2⟩
      exact ⟨(d - checkin).toNat, by omega, by omega⟩

/-- C9 witness: a two-night window starting at day 0. -/
theorem interpolate_missing_days_interval_witness :
    (interpolate_missing_days [] (daterange_nights 0 2)).map (fun r => r.date)
      = daterange_nights 0 2 :=
  (interpolate_missing_days_interval 0 2 (by norm_num) []).1

/-- C8: `_interpolate` is linear between the nearest anchors
(`before + (offset/span) × (after − before)`), clamps to the first/last
anchor outside their span (`day −1 ↦ 100`, `day 15 ↦ 200` for anchors
`day 0 = 100`, `day 10 = 200`, and `day 5 ↦ 150`), returns `none` with
zero anchors, in which case `interpolate_missing_days` emits a
`no_data` row with a null median and the `missing_data` flag. -/
theorem interpolate_linear_spec :
    (∀ t : ℤ, interpolate t [] = none) ∧
    (∀ (d0 d1 : ℤ) (p0 p1 : ℚ) (t : ℤ), d0 ≤ t → t ≤ d1 → d0 < d1 →
      interpolate t [(d0, p0), (d1, p1)]
        = some (p0 + ((t - d0 : ℤ) : ℚ) / ((d1 - d0 : ℤ) : ℚ) * (p1 - p0))) ∧
    interpolate 5 [(0, 100), (10, 200)] = some 150 ∧
    interpolate (-1) [(0, 100), (10, 200)] = some 100 ∧
    interpolate 15 [(0, 100), (10, 200)] = some 200 ∧
    (∀ (nights : List ℤ) (r : DayResult),
      r ∈ interpolate_missing_days [] nights →
      r.median_price = none ∧ r.flags = ["missing_data"] ∧
      r.filter_stage = "no_data") := by
  have hgen : ∀ (d0 d1 : ℤ) (p0 p1 : ℚ) (t : ℤ), d0 ≤ t → t ≤ d1 → d0 < d1 →
      interpolate t [(d0, p0), (d1, p1)]
        = some (p0 + ((t - d0 : ℤ) : ℚ) / ((d1 - d0 : ℤ) : ℚ) * (p1 - p0)) := by
    intro d0 d1 p0 p1 t h0 h1 h01
    have hb : interp_before t [(d0, p0), (d1, p1)]
        = if d1 ≤ t then some (d1, p1) else some (d0, p0) := by
      simp only [interp_before, List.foldl_cons, List.foldl_nil, if_pos h0]
    have ha : interp_after t [(d0, p0), (d1, p1)]
        = if t ≤ d0 then some (d0, p0) else some (d1, p1) := by
      simp only [interp_after, List.foldl_cons, List.foldl_nil]
      by_cases h2 : t ≤ d0
      · simp [h2, h1]
      · simp [h2, h1]
    rw [interpolate]
    case x_1 => simp
    case x_2 => simp
    rw [hb, ha]
    by_cases hd1 : d1 ≤ t
    · have ht : t = d1 := le_antisymm h1 hd1
      have hne : (d1 : ℚ) - (d0 : ℚ) ≠ 0 :=
        sub_ne_zero_of_ne (by exact_mod_cast (by omega : d1 ≠ d0))
      rw [if_pos hd1, if_neg (by omega), ht]
      simp [div_self hne]
    · push_neg at hd1
      by_cases ht0 : t ≤ d0
      · have ht : t = d0 := le_antisymm ht0 h0
        rw [if_neg (by omega), if_pos ht0]
        simp [ht]
      · rw [if_neg (by omega), if_neg ht0]
        simp [show d0 ≠ d1 from by omega]
  have h5 : interpolate 5 [(0, 100), (10, 200)] = some 150 := by
    rw [hgen 0 10 100 200 5 (by norm_num) (by norm_num) (by norm_num)]
    norm_num
  have hneg1 : interpolate (-1) [(0, 100), (10, 200)] = some 100 := by
    rw [interpolate]
    case x_1 => simp
    case x_2 => simp
    norm_num [interp_before, interp_after, Option.some_ne_none]
  have h15 : interpolate 15 [(0, 100), (10, 200)] = some 200 := by
    rw [interpolate]
    case x_1 => simp
    case x_2 => simp
    norm_num [interp_before, interp_after, Option.some_ne_none]
  have hzero : ∀ (nights : List ℤ) (r : DayResult),
      r ∈ interpolate_missing_days [] nights →
      r.median_price = none ∧ r.flags = ["missing_data"] ∧
      r.filter_stage = "no_data" := by
    intro nights r hr
    simp only [interpolate_missing_days, List.filter_nil, List.reverse_nil,
      List.find?_nil, List.map_nil, List.dedup_nil, List.filterMap_nil] at hr
    obtain ⟨night, _, rfl⟩ := List.mem_map.mp hr
    exact ⟨rfl, rfl, rfl⟩
  exact ⟨fun t => rfl, hgen, h5, hneg1, h15, hzero⟩

/-- C8 witness: the general linear formula applied at the example
anchors and the midpoint night. -/
theorem interpolate_linear_spec_witness :
    interpolate 5 [(0, 100), (10, 200)]
      = some (100 + ((5 - 0 : ℤ) : ℚ) / ((10 - 0 : ℤ) : ℚ) * (200 - 100)) :=
  interpolate_linear_spec.2.1 0 10 100 200 5 (by norm_num) (by norm_num)
    (by norm_num)
